import Mathlib

/-!
Verification of the habittracker streak/lifecycle core (src/src/models/habit.py,
src/src/models/periodicity.py, src/src/analytics/analytics.py,
src/src/core/habit_tracker.py).

Shallow embedding conventions:
* A timestamp (Python `datetime`) is an `Int`: minutes since an epoch chosen so
  that day 0 is a Monday (Python's proleptic calendar has Monday at ordinal 1,
  so this is a plain shift of the day numbering).
* `date()` is floor division by 1440 minutes.  Python `//` floors, and for the
  positive divisor 1440 Lean's Euclidean `/` on `Int` is exactly floor
  division, so `/` is used throughout; likewise Python `%` on a positive
  modulus agrees with Lean's `%` on `Int`.
* `timedelta.days` (from `datetime` subtraction) floors toward minus infinity,
  i.e. `(a - b) / 1440`.
* Python exceptions are modelled with `Except`; a function that cannot raise is
  wrapped in `Except.ok`.
* The ambient clock `datetime.now()` is threaded as an explicit `now` argument;
  each Python call site reads it once at the top of the method body.
-/

/-- Minutes per calendar day. -/
def minutesPerDay : Int := 1440

/-- Python `datetime.date()` as a day index: floor of minutes by 1440. -/
def dateOf (t : Int) : Int := t / minutesPerDay

/-- Python `date.weekday()`: Monday = 0 … Sunday = 6 (day 0 is a Monday). -/
def weekday (d : Int) : Int := d % 7

/-- `d - timedelta(days=d.weekday())`: the most recent Monday on or before `d`. -/
def weekStart (d : Int) : Int := d - weekday d

/-- `(a - b).days` for two `datetime`s: floored day difference. -/
def daysBetween (a b : Int) : Int := (a - b) / minutesPerDay

/-- The `Periodicity` enum from periodicity.py (values "daily" / "weekly"). -/
inductive Periodicity
  | DAILY
  | WEEKLY
  deriving DecidableEq

/-- The spec's period bucketing: calendar date for Daily, Monday-aligned week
start for Weekly (spec section 4.1); takes a date (day index). -/
def periodKey : Periodicity → Int → Int
  | .DAILY, d => d
  | .WEEKLY, d => weekStart d

/-- Spec-level error taxonomy (spec section 7).  The source raises Python
`ValueError` in the invalid-periodicity case; the spec names that condition
`InvalidPeriodicityError`.  No code path in the source raises in the
duplicate-completion case. -/
inductive HabitError
  | duplicateCompletion
  | invalidPeriodicity
  deriving DecidableEq

/-- The Habit aggregate from habit.py (id omitted: opaque to the core). -/
structure Habit where
  name : String
  description : String
  periodicity : Periodicity
  created_date : Int
  completions : List Int
  deriving DecidableEq

/-- A Python value passed as the `periodicity` argument of `Habit.__init__`:
a string, a `Periodicity` enum member, or anything else. -/
inductive PeriodicityArg
  | str (s : String)
  | enum (p : Periodicity)
  | other
  deriving DecidableEq

/-- The periodicity validation in `Habit.__init__` (habit.py lines 27-33):
`Periodicity(s)` raises `ValueError` unless `s` is "daily" or "weekly", and a
non-string non-enum value raises `ValueError` directly. -/
def parsePeriodicity : PeriodicityArg → Except HabitError Periodicity
  | .str s =>
      if s = "daily" then Except.ok Periodicity.DAILY
      else if s = "weekly" then Except.ok Periodicity.WEEKLY
      else Except.error HabitError.invalidPeriodicity
  | .enum p => Except.ok p
  | .other => Except.error HabitError.invalidPeriodicity

/-- `Habit.__init__` (habit.py lines 14-40): validate the periodicity, then
create the habit with an empty completion log. -/
def mkHabit (nm ds : String) (p : PeriodicityArg) (created : Int) :
    Except HabitError Habit :=
  match parsePeriodicity p with
  | Except.error e => Except.error e
  | Except.ok per => Except.ok ⟨nm, ds, per, created, []⟩

/-- `Habit.mark_completed` (habit.py lines 42-49): unconditionally append the
timestamp; the source performs no duplicate-period check and raises nothing
(the `Except` layer records that no error occurs). -/
def Habit.mark_completed (h : Habit) (t : Int) : Except HabitError Habit :=
  Except.ok ⟨h.name, h.description, h.periodicity, h.created_date,
    h.completions ++ [t]⟩

/-- Python `max(list)` on a nonempty list (0 on `[]`, where Python raises). -/
def maxList : List Int → Int
  | [] => 0
  | x :: xs => xs.foldl max x

/-- The daily loop of `calculate_current_streak` (analytics.py lines 32-44):
walk the dates sorted descending; a match counts and moves the expected date
back a day, an earlier date breaks, a later date is skipped. -/
def dailyScanA : List Int → Int → Int → Int
  | [], _, streak => streak
  | d :: rest, expected, streak =>
      if d = expected then dailyScanA rest (expected - 1) (streak + 1)
      else if d < expected then streak
      else dailyScanA rest expected streak

/-- The weekly loop of `calculate_current_streak` (analytics.py lines 46-65):
walk the dates sorted descending against the expected week window. -/
def weeklyScanA : List Int → Int → Int → Int
  | [], _, streak => streak
  | d :: rest, ews, streak =>
      if ews ≤ d ∧ d ≤ ews + 6 then weeklyScanA rest (ews - 7) (streak + 1)
      else if d < ews then streak
      else weeklyScanA rest ews streak

/-- `calculate_current_streak` (analytics.py lines 12-67), with the ambient
`datetime.now()` threaded as `now`. -/
def calculate_current_streak (completions : List Int) (p : Periodicity)
    (now : Int) : Int :=
  if completions = [] then 0
  else
    match p with
    | .DAILY =>
        dailyScanA (List.insertionSort (fun a b => b ≤ a) (completions.map dateOf))
          (dateOf now) 0
    | .WEEKLY =>
        weeklyScanA (List.insertionSort (fun a b => b ≤ a) (completions.map dateOf))
          (weekStart (dateOf now)) 0

/-- The run scanner shared by both longest-streak loops (analytics.py lines
89-98 and 103-111): adjacent difference equal to `step` extends the current
run, anything else closes it; the final answer is `max longest current`. -/
def runScan (step : Int) : List Int → Int → Int → Int → Int
  | [], _, current, longest => max longest current
  | d :: rest, prev, current, longest =>
      if d - prev = step then runScan step rest d (current + 1) longest
      else runScan step rest d 1 (max longest current)

/-- `longest = current = 1` initialisation plus the scan over indices 1.. of a
sorted list (empty case unreachable behind the emptiness guard). -/
def longestFrom (step : Int) : List Int → Int
  | [] => 0
  | d :: rest => runScan step rest d 1 1

/-- `calculate_longest_streak` (analytics.py lines 70-113).  The weekly branch
maps each sorted date to its week start (Monday) before scanning. -/
def calculate_longest_streak (completions : List Int) (p : Periodicity) : Int :=
  if completions = [] then 0
  else
    match p with
    | .DAILY =>
        longestFrom 1 (List.insertionSort (fun a b => a ≤ b) (completions.map dateOf))
    | .WEEKLY =>
        longestFrom 7
          ((List.insertionSort (fun a b => a ≤ b) (completions.map dateOf)).map
            weekStart)

/-- The daily loop of `Habit.get_current_streak` (habit.py lines 65-73): the
source walks index `idx` down a sorted-ascending list, which is the same as
walking its reverse front to back; stop at the first mismatch. -/
def habitDailyScan : List Int → Int → Int → Int
  | [], _, streak => streak
  | d :: rest, day, streak =>
      if d = day then habitDailyScan rest (day - 1) (streak + 1) else streak

/-- The inner search of the weekly loop (habit.py lines 90-95): scan `j` from
`idx` downward — i.e. forward in the reversed list — for the first date inside
`[ws, we]`, returning the remaining suffix from that date on. -/
def searchWeek : List Int → Int → Int → Option (List Int)
  | [], _, _ => none
  | d :: rest, ws, we =>
      if ws ≤ d ∧ d ≤ we then some (d :: rest) else searchWeek rest ws we

/-- The weekly `while` loop of `Habit.get_current_streak` (habit.py lines
75-98), over the reversed (descending) date list whose head is `c[idx]`.  The
source's inner search starts at `j = idx` itself, but under the loop guard
`ws ≤ c[idx]` that first probe can never land in the next window
`[ws - 7, ws - 1]`, so the search here starts at the tail.  `fuel` bounds the
iteration count: `idx` strictly decreases every iteration, so any fuel of at
least the list length is enough and the fuel-exhausted default is never hit at
the call site below. -/
def habitWeeklyLoop : Nat → List Int → Int → Int → Int → Int
  | _, [], _, _, streak => streak
  | 0, _ :: _, _, _, streak => streak
  | fuel + 1, d :: rest, ws, tdy, streak =>
      if ws ≤ d ∧ d ≤ tdy then
        match searchWeek rest (ws - 7) (ws - 7 + 6) with
        | some l => habitWeeklyLoop fuel l (ws - 7) (ws - 7 + 6) (streak + 1)
        | none => streak + 1
      else streak

/-- `Habit.get_current_streak` (habit.py lines 51-100), `datetime.now()`
threaded as `now`.  The source sorts dates ascending and walks from the top
index down, which the embedding renders as scanning the reversed list. -/
def Habit.get_current_streak (h : Habit) (now : Int) : Int :=
  if h.completions = [] then 0
  else
    match h.periodicity with
    | .DAILY =>
        habitDailyScan
          (List.insertionSort (fun a b => a ≤ b) (h.completions.map dateOf)).reverse
          (dateOf now) 0
    | .WEEKLY =>
        habitWeeklyLoop (h.completions.length + 1)
          (List.insertionSort (fun a b => a ≤ b) (h.completions.map dateOf)).reverse
          (weekStart (dateOf now)) (dateOf now) 0

/-- `Habit.get_longest_streak` (habit.py lines 102-137): its body is textually
identical to `calculate_longest_streak` in analytics.py. -/
def Habit.get_longest_streak (h : Habit) : Int :=
  calculate_longest_streak h.completions h.periodicity

/-- `Habit.is_due` (habit.py lines 139-166). -/
def Habit.is_due (h : Habit) (now : Int) : Bool :=
  if h.completions = [] then true
  else
    match h.periodicity with
    | .DAILY => decide (dateOf (maxList h.completions) < dateOf now)
    | .WEEKLY => decide (dateOf (maxList h.completions) < weekStart (dateOf now))

/-- `Habit.is_broken` (habit.py lines 168-199).  With the closed enum both
empty-log branches return, so the Python fall-through to
`max(self.completions)` on an empty list is dead. -/
def Habit.is_broken (h : Habit) (now : Int) : Bool :=
  if h.completions = [] then
    match h.periodicity with
    | .DAILY => decide (dateOf now - dateOf h.created_date > 0)
    | .WEEKLY => decide (daysBetween now h.created_date > 7)
  else
    match h.periodicity with
    | .DAILY => decide (dateOf now - dateOf (maxList h.completions) > 1)
    | .WEEKLY => decide (daysBetween now (maxList h.completions) > 14)

/-! ## Claim exhibits: concrete evaluations of the embedded source -/

/-- Claim C1 (code bug exhibit): a Daily habit already has a completion at
minute 0; marking it completed again at minute 60 — the same calendar date,
hence the same period key — raises no error and appends, growing the log from
1 to 2 entries.  The claim (and the comment at habit_tracker.py line 105) says
this call fails with `DuplicateCompletionError` and leaves the log unchanged. -/
theorem C1_mark_completed_appends_duplicate :
    Habit.mark_completed ⟨"read", "", Periodicity.DAILY, 0, [0]⟩ 60 =
      Except.ok ⟨"read", "", Periodicity.DAILY, 0, [0, 60]⟩
    ∧ periodKey Periodicity.DAILY (dateOf 60) = periodKey Periodicity.DAILY (dateOf 0)
    ∧ ([0, 60] : List Int).length = 2 :=
  ⟨rfl, by decide, by decide⟩

/-- Claim C2 (code bug exhibit): a Daily log completed on days 0, 1, 2 has
longest streak 3, but appending a second completion on day 1 (minute 1441,
same period key as minute 1440) drops the longest streak to 2: the duplicate
resets the run counter because `calculate_longest_streak` omits the dedup the
spec declares mandatory. -/
theorem C2_duplicate_changes_longest_streak :
    calculate_longest_streak [0, 1440, 2880] Periodicity.DAILY = 3
    ∧ calculate_longest_streak [0, 1440, 2880, 1441] Periodicity.DAILY = 2
    ∧ periodKey Periodicity.DAILY (dateOf 1441) = periodKey Periodicity.DAILY (dateOf 1440) :=
  ⟨by decide, by decide, by decide⟩

/-- Claim C9 (code bug exhibit): on the log [1440, 2880, 2881] — dates
yesterday, today, today — with now = 2880, the two current-streak
implementations disagree: `Habit.get_current_streak` stops at the duplicate
and returns 1 while `calculate_current_streak` skips it and returns 2. -/
theorem C9_current_streak_implementations_disagree :
    Habit.get_current_streak ⟨"r", "", Periodicity.DAILY, 0, [1440, 2880, 2881]⟩ 2880 = 1
    ∧ calculate_current_streak [1440, 2880, 2881] Periodicity.DAILY 2880 = 2 :=
  ⟨by decide, by decide⟩

/-- Claim C10 (code bug exhibit): on the log [0, 1440, 1441, 2880] — dates
0, 1, 1, 2 — with now = 2880, the current streak is 3 but the longest streak
is 2: `calculate_current_streak` effectively ignores the duplicate day while
`calculate_longest_streak` lets it reset the run, so current exceeds longest. -/
theorem C10_current_streak_exceeds_longest :
    calculate_current_streak [0, 1440, 1441, 2880] Periodicity.DAILY 2880 = 3
    ∧ calculate_longest_streak [0, 1440, 1441, 2880] Periodicity.DAILY = 2 :=
  ⟨by decide, by decide⟩

/-- Claim C4 (counterexample): a Weekly habit whose only completion is at
minute 0, queried at minute 20161 = 14 days + 1 minute later.  More than 14
days have elapsed, yet `is_broken` is false, because the source floors the
elapsed time to whole days (14) before comparing with 14. -/
theorem C4_weekly_broken_false_just_beyond_14_days :
    Habit.is_broken ⟨"h", "d", Periodicity.WEEKLY, 0, [0]⟩ 20161 = false
    ∧ (20161 : Int) - 0 > 14 * minutesPerDay :=
  ⟨by decide, by decide⟩

/-- Claim C5 (counterexample): a Daily habit with an empty log created at
minute 1439 (23:59 of day 0), queried at minute 1440 (00:00 of day 1).  Only
one minute — far less than one full period — has elapsed, yet `is_broken` is
true, because the source compares calendar dates, not elapsed time. -/
theorem C5_daily_empty_broken_after_one_minute :
    Habit.is_broken ⟨"h", "d", Periodicity.DAILY, 1439, []⟩ 1440 = true
    ∧ (1440 : Int) - 1439 < minutesPerDay :=
  ⟨by decide, by decide⟩

/-! ## Helper lemmas -/

/-- A date lies in the week of `t` exactly when it shares `t`'s week start. -/
theorem weekStart_eq_iff (d t : Int) :
    weekStart d = weekStart t ↔ weekStart t ≤ d ∧ d ≤ weekStart t + 6 := by
  unfold weekStart weekday
  omega

/-- Claim C7: the Weekly period key used by the streak and lifecycle
computations is the date minus its weekday index (Monday = 0 … Sunday = 6),
i.e. the most recent Monday on or before the date; two dates bucket to the
same week exactly when they fall in that Monday's 7-day window, and adjacent
weeks' keys differ by exactly 7 days. -/
theorem C7_weekly_period_key_most_recent_monday :
    ∀ d e : Int,
      periodKey Periodicity.WEEKLY d = d - weekday d
      ∧ weekStart d % 7 = 0
      ∧ weekStart d ≤ d
      ∧ d - weekStart d < 7
      ∧ (weekStart e = weekStart d ↔ weekStart d ≤ e ∧ e ≤ weekStart d + 6)
      ∧ weekStart (d + 7) = weekStart d + 7 := by
  intro d e
  refine ⟨rfl, ?_, ?_, ?_, weekStart_eq_iff e d, ?_⟩ <;>
    · unfold weekStart weekday
      omega

/-- Claim C8: constructing a Habit from a periodicity value outside
{daily, weekly} — any other string, or any non-string non-Periodicity value —
fails with the invalid-periodicity error (a Python `ValueError` in the source,
which the spec taxonomy names `InvalidPeriodicityError`), and no Habit is
created. -/
theorem C8_invalid_periodicity_rejected :
    ∀ (nm ds : String) (created : Int) (s : String),
      s ≠ "daily" → s ≠ "weekly" →
      mkHabit nm ds (PeriodicityArg.str s) created
          = Except.error HabitError.invalidPeriodicity
      ∧ mkHabit nm ds PeriodicityArg.other created
          = Except.error HabitError.invalidPeriodicity
      ∧ ∀ hb : Habit,
          mkHabit nm ds (PeriodicityArg.str s) created ≠ Except.ok hb := by
  intro nm ds created s h1 h2
  have hp : parsePeriodicity (PeriodicityArg.str s)
      = Except.error HabitError.invalidPeriodicity := by
    simp only [parsePeriodicity]
    rw [if_neg h1, if_neg h2]
  have hm : mkHabit nm ds (PeriodicityArg.str s) created
      = Except.error HabitError.invalidPeriodicity := by
    simp only [mkHabit, hp]
  refine ⟨hm, rfl, ?_⟩
  intro hb hcon
  rw [hm] at hcon
  exact Except.noConfusion hcon

/-- Witness for C8 at the concrete invalid periodicity string "monthly". -/
theorem C8_invalid_periodicity_rejected_witness :
    ("monthly" : String) ≠ "daily" ∧ ("monthly" : String) ≠ "weekly"
    ∧ mkHabit "n" "d" (PeriodicityArg.str "monthly") 0
        = Except.error HabitError.invalidPeriodicity :=
  ⟨by decide, by decide,
    (C8_invalid_periodicity_rejected "n" "d" 0 "monthly" (by decide) (by decide)).1⟩

/-- Claim C5 as amended: for an empty log, Daily `is_broken` is true exactly
when `now`'s calendar date is strictly later than the creation date's calendar
date (a day boundary was crossed, even if less than one full day elapsed), and
Weekly `is_broken` is true exactly when at least 8 full days (8 × 1440
minutes) have elapsed since `created_date`. -/
theorem C5_amended_empty_log_broken_iff :
    ∀ (nm ds : String) (created now : Int),
      (Habit.is_broken ⟨nm, ds, Periodicity.DAILY, created, []⟩ now = true
        ↔ dateOf created < dateOf now)
      ∧ (Habit.is_broken ⟨nm, ds, Periodicity.WEEKLY, created, []⟩ now = true
        ↔ 8 * minutesPerDay ≤ now - created) := by
  intro nm ds created now
  constructor
  · rw [show Habit.is_broken ⟨nm, ds, Periodicity.DAILY, created, []⟩ now
        = decide (dateOf now - dateOf created > 0) from rfl]
    rw [decide_eq_true_eq]
    omega
  · rw [show Habit.is_broken ⟨nm, ds, Periodicity.WEEKLY, created, []⟩ now
        = decide (daysBetween now created > 7) from rfl]
    rw [decide_eq_true_eq]
    unfold daysBetween minutesPerDay
    omega

/-- Claim C4 as amended: for a non-empty log, Daily `is_broken` is false when
the most recent completion's date is today or yesterday and true when the
calendar-date difference exceeds 1 (as claimed); Weekly `is_broken` is true
exactly when at least 15 full days (15 × 1440 minutes) have elapsed since the
most recent completion — so it is false within 14 days as claimed, but also
still false for elapsed times strictly between 14 and 15 days, because the
source floors the elapsed time to whole days before comparing with 14. -/
theorem C4_amended_broken_nonempty :
    ∀ (nm ds : String) (created : Int) (completions : List Int) (now : Int),
      completions ≠ [] →
      ((dateOf (maxList completions) = dateOf now
          ∨ dateOf (maxList completions) = dateOf now - 1) →
        Habit.is_broken ⟨nm, ds, Periodicity.DAILY, created, completions⟩ now = false)
      ∧ (dateOf now - dateOf (maxList completions) > 1 →
        Habit.is_broken ⟨nm, ds, Periodicity.DAILY, created, completions⟩ now = true)
      ∧ (Habit.is_broken ⟨nm, ds, Periodicity.WEEKLY, created, completions⟩ now = true
          ↔ 15 * minutesPerDay ≤ now - maxList completions) := by
  intro nm ds created completions now hne
  cases completions with
  | nil => exact absurd rfl hne
  | cons c cs =>
    have hd : Habit.is_broken ⟨nm, ds, Periodicity.DAILY, created, c :: cs⟩ now
        = decide (dateOf now - dateOf (maxList (c :: cs)) > 1) := rfl
    have hw : Habit.is_broken ⟨nm, ds, Periodicity.WEEKLY, created, c :: cs⟩ now
        = decide (daysBetween now (maxList (c :: cs)) > 14) := rfl
    refine ⟨?_, ?_, ?_⟩
    · intro hcase
      rw [hd, decide_eq_false_iff_not]
      omega
    · intro hcase
      rw [hd, decide_eq_true_eq]
      omega
    · rw [hw, decide_eq_true_eq]
      unfold daysBetween minutesPerDay
      omega

/-- Witness for C4 as amended: a habit whose only completion is at minute
2880, queried at the same instant. -/
theorem C4_amended_broken_nonempty_witness :
    ([2880] : List Int) ≠ []
    ∧ ((dateOf (maxList [2880]) = dateOf 2880
          ∨ dateOf (maxList [2880]) = dateOf 2880 - 1) →
        Habit.is_broken ⟨"r", "d", Periodicity.DAILY, 0, [2880]⟩ 2880 = false)
    ∧ (dateOf 2880 - dateOf (maxList [2880]) > 1 →
        Habit.is_broken ⟨"r", "d", Periodicity.DAILY, 0, [2880]⟩ 2880 = true)
    ∧ (Habit.is_broken ⟨"r", "d", Periodicity.WEEKLY, 0, [2880]⟩ 2880 = true
        ↔ 15 * minutesPerDay ≤ 2880 - maxList [2880]) :=
  ⟨by decide, (C4_amended_broken_nonempty "r" "d" 0 [2880] 2880 (by decide)).1,
    (C4_amended_broken_nonempty "r" "d" 0 [2880] 2880 (by decide)).2.1,
    (C4_amended_broken_nonempty "r" "d" 0 [2880] 2880 (by decide)).2.2⟩

/-- Folding `max` over a list never goes below the initial accumulator. -/
theorem le_foldl_max_init : ∀ (l : List Int) (a : Int), a ≤ l.foldl max a := by
  intro l
  induction l with
  | nil => intro a; simp
  | cons x xs ih =>
    intro a
    simp only [List.foldl]
    exact le_trans (le_max_left a x) (ih (max a x))

/-- Folding `max` over a list dominates every member. -/
theorem le_foldl_max_mem : ∀ (l : List Int) (a x : Int), x ∈ l → x ≤ l.foldl max a := by
  intro l
  induction l with
  | nil => intro a x hx; cases hx
  | cons y ys ih =>
    intro a x hx
    rcases List.mem_cons.mp hx with h | h
    · subst h
      simp only [List.foldl]
      exact le_trans (le_max_right a x) (le_foldl_max_init ys (max a x))
    · exact ih (max a y) x h

/-- An element appended to a log is bounded by the log's maximum. -/
theorem le_maxList_append (l : List Int) (x : Int) : x ≤ maxList (l ++ [x]) := by
  cases l with
  | nil => simp [maxList]
  | cons y ys =>
    show x ≤ (ys ++ [x]).foldl max y
    exact le_foldl_max_mem (ys ++ [x]) y x (by simp)

/-- Claim C6: `is_due` is true exactly when the log is empty or the period key
of the most recent (maximal) completion is strictly earlier than the period
key of `now`; and immediately after `mark_completed` at `now` the habit is not
due. -/
theorem C6_is_due_iff_last_period_earlier :
    ∀ (h : Habit) (now : Int),
      (h.is_due now = true ↔
        h.completions = [] ∨ (h.completions ≠ [] ∧
          periodKey h.periodicity (dateOf (maxList h.completions))
            < periodKey h.periodicity (dateOf now)))
      ∧ (Habit.mark_completed h now).map (fun h2 => h2.is_due now)
          = Except.ok false := by
  intro h now
  obtain ⟨nm, ds, p, cr, cs⟩ := h
  constructor
  · cases cs with
    | nil =>
      cases p <;> simp [Habit.is_due]
    | cons c cs' =>
      have hne : (c :: cs') ≠ ([] : List Int) := by simp
      cases p with
      | DAILY =>
        rw [show Habit.is_due ⟨nm, ds, Periodicity.DAILY, cr, c :: cs'⟩ now
            = decide (dateOf (maxList (c :: cs')) < dateOf now) from rfl]
        simp only [decide_eq_true_eq, periodKey]
        simp [hne]
      | WEEKLY =>
        rw [show Habit.is_due ⟨nm, ds, Periodicity.WEEKLY, cr, c :: cs'⟩ now
            = decide (dateOf (maxList (c :: cs')) < weekStart (dateOf now)) from rfl]
        simp only [decide_eq_true_eq, periodKey]
        simp only [hne, false_or, ne_eq, not_false_eq_true, true_and, reduceCtorEq]
        unfold weekStart weekday
        omega
  · have hmax : now ≤ maxList (cs ++ [now]) := le_maxList_append cs now
    have hne : (cs ++ [now]) ≠ ([] : List Int) := by simp
    show Except.ok (Habit.is_due ⟨nm, ds, p, cr, cs ++ [now]⟩ now) = Except.ok false
    cases hcs : cs ++ [now] with
    | nil => exact absurd hcs hne
    | cons c cs' =>
      rw [hcs] at hmax
      cases p with
      | DAILY =>
        rw [show Habit.is_due ⟨nm, ds, Periodicity.DAILY, cr, c :: cs'⟩ now
            = decide (dateOf (maxList (c :: cs')) < dateOf now) from rfl]
        have : ¬(dateOf (maxList (c :: cs')) < dateOf now) := by
          unfold dateOf minutesPerDay
          omega
        simp [this]
      | WEEKLY =>
        rw [show Habit.is_due ⟨nm, ds, Periodicity.WEEKLY, cr, c :: cs'⟩ now
            = decide (dateOf (maxList (c :: cs')) < weekStart (dateOf now)) from rfl]
        have : ¬(dateOf (maxList (c :: cs')) < weekStart (dateOf now)) := by
          unfold weekStart weekday dateOf minutesPerDay
          omega
        simp [this]

/-- The daily descending scan returns its accumulator when no date matches the
expected date: later dates are skipped, an earlier date breaks. -/
theorem dailyScanA_eq_of_no_match :
    ∀ (l : List Int) (e a : Int), (∀ d ∈ l, d ≠ e) → dailyScanA l e a = a := by
  intro l
  induction l with
  | nil => intro e a _; rfl
  | cons d rest ih =>
    intro e a h
    have hd : d ≠ e := h d (List.mem_cons_self d rest)
    simp only [dailyScanA, if_neg hd]
    by_cases hlt : d < e
    · rw [if_pos hlt]
    · rw [if_neg hlt]
      exact ih e a (fun x hx => h x (List.mem_cons_of_mem d hx))

/-- The weekly descending scan returns its accumulator when no date falls in
the expected week window. -/
theorem weeklyScanA_eq_of_no_window :
    ∀ (l : List Int) (ws a : Int), (∀ d ∈ l, ¬(ws ≤ d ∧ d ≤ ws + 6)) →
      weeklyScanA l ws a = a := by
  intro l
  induction l with
  | nil => intro ws a _; rfl
  | cons d rest ih =>
    intro ws a h
    have hd := h d (List.mem_cons_self d rest)
    simp only [weeklyScanA, if_neg hd]
    by_cases hlt : d < ws
    · rw [if_pos hlt]
    · rw [if_neg hlt]
      exact ih ws a (fun x hx => h x (List.mem_cons_of_mem d hx))

/-- The habit daily walk stops at once when no date equals the anchor day (in
particular when its first probe, the maximal date, differs from it). -/
theorem habitDailyScan_eq_of_no_match (l : List Int) (e a : Int)
    (h : ∀ d ∈ l, d ≠ e) : habitDailyScan l e a = a := by
  cases l with
  | nil => rfl
  | cons d rest =>
    simp only [habitDailyScan, if_neg (h d (List.mem_cons_self d rest))]

/-- The habit weekly loop stops at once when no date lies in the anchor week:
its guard `ws ≤ d ∧ d ≤ tdy` implies week membership since `tdy` is inside the
anchor week. -/
theorem habitWeeklyLoop_eq_of_no_window (fuel : Nat) (l : List Int)
    (ws tdy a : Int) (h : ∀ d ∈ l, ¬(ws ≤ d ∧ d ≤ ws + 6)) (htdy : tdy ≤ ws + 6) :
    habitWeeklyLoop fuel l ws tdy a = a := by
  cases l with
  | nil => cases fuel <;> rfl
  | cons d rest =>
    cases fuel with
    | zero => rfl
    | succ n =>
      have hcon : ¬(ws ≤ d ∧ d ≤ tdy) := by
        intro hc
        exact h d (List.mem_cons_self d rest) ⟨hc.1, le_trans hc.2 htdy⟩
      simp only [habitWeeklyLoop, if_neg hcon]

/-- Claim C3: if no completion's period key equals the period key of `now`,
the current streak is 0 — for both `calculate_current_streak` and
`Habit.get_current_streak`; in particular a Daily log holding only `now - 1d`
and `now - 2d` has current streak 0 under both implementations while the
longest streak is 2. -/
theorem C3_no_anchor_completion_current_streak_zero :
    (∀ (completions : List Int) (p : Periodicity) (now : Int),
        (∀ c ∈ completions, periodKey p (dateOf c) ≠ periodKey p (dateOf now)) →
        calculate_current_streak completions p now = 0
        ∧ ∀ (nm ds : String) (created : Int),
            Habit.get_current_streak ⟨nm, ds, p, created, completions⟩ now = 0)
    ∧ (∀ (now : Int) (nm ds : String) (created : Int),
        calculate_current_streak [now - 1440, now - 2880] Periodicity.DAILY now = 0
        ∧ calculate_longest_streak [now - 1440, now - 2880] Periodicity.DAILY = 2
        ∧ Habit.get_current_streak
            ⟨nm, ds, Periodicity.DAILY, created, [now - 1440, now - 2880]⟩ now = 0) := by
  have hgen : ∀ (completions : List Int) (p : Periodicity) (now : Int),
      (∀ c ∈ completions, periodKey p (dateOf c) ≠ periodKey p (dateOf now)) →
      calculate_current_streak completions p now = 0
      ∧ ∀ (nm ds : String) (created : Int),
          Habit.get_current_streak ⟨nm, ds, p, created, completions⟩ now = 0 := by
    intro cs p now hkey
    by_cases hc : cs = []
    · subst hc
      constructor
      · rfl
      · intro nm ds created
        rfl
    · cases p with
      | DAILY =>
        have hdates : ∀ d ∈ cs.map dateOf, d ≠ dateOf now := by
          intro d hd
          obtain ⟨c, hcmem, rfl⟩ := List.mem_map.mp hd
          exact hkey c hcmem
        constructor
        · show (if cs = [] then 0 else _) = 0
          rw [if_neg hc]
          exact dailyScanA_eq_of_no_match _ _ _
            (fun d hd => hdates d ((List.perm_insertionSort _ _).mem_iff.mp hd))
        · intro nm ds created
          show (if cs = [] then 0 else _) = 0
          rw [if_neg hc]
          exact habitDailyScan_eq_of_no_match _ _ _
            (fun d hd => hdates d
              ((List.perm_insertionSort _ _).mem_iff.mp (List.mem_reverse.mp hd)))
      | WEEKLY =>
        have hwin : ∀ d ∈ cs.map dateOf,
            ¬(weekStart (dateOf now) ≤ d ∧ d ≤ weekStart (dateOf now) + 6) := by
          intro d hd hcontra
          obtain ⟨c, hcmem, rfl⟩ := List.mem_map.mp hd
          exact hkey c hcmem ((weekStart_eq_iff _ _).mpr hcontra)
        constructor
        · show (if cs = [] then 0 else _) = 0
          rw [if_neg hc]
          exact weeklyScanA_eq_of_no_window _ _ _
            (fun d hd => hwin d ((List.perm_insertionSort _ _).mem_iff.mp hd))
        · intro nm ds created
          show (if cs = [] then 0 else _) = 0
          rw [if_neg hc]
          refine habitWeeklyLoop_eq_of_no_window _ _ _ _ _
            (fun d hd => hwin d
              ((List.perm_insertionSort _ _).mem_iff.mp (List.mem_reverse.mp hd))) ?_
          unfold weekStart weekday
          omega
  refine ⟨hgen, ?_⟩
  intro now nm ds created
  have h1 : dateOf (now - 1440) = dateOf now - 1 := by
    unfold dateOf minutesPerDay
    omega
  have h2 : dateOf (now - 2880) = dateOf now - 2 := by
    unfold dateOf minutesPerDay
    omega
  have hkey : ∀ c ∈ ([now - 1440, now - 2880] : List Int),
      periodKey Periodicity.DAILY (dateOf c) ≠ periodKey Periodicity.DAILY (dateOf now) := by
    intro c hcmem
    rcases List.mem_cons.mp hcmem with h | h
    · subst h
      simp only [periodKey, h1]
      omega
    · rcases List.mem_cons.mp h with h | h
      · subst h
        simp only [periodKey, h2]
        omega
      · cases h
  have hstale := hgen [now - 1440, now - 2880] Periodicity.DAILY now hkey
  refine ⟨hstale.1, ?_, hstale.2 nm ds created⟩
  have hne : ([now - 1440, now - 2880] : List Int) ≠ [] := by simp
  show (if ([now - 1440, now - 2880] : List Int) = [] then 0 else _) = 2
  rw [if_neg hne]
  simp only [List.map, h1, h2]
  have hsort : List.insertionSort (fun a b => a ≤ b) [dateOf now - 1, dateOf now - 2]
      = [dateOf now - 2, dateOf now - 1] := by
    simp only [List.insertionSort, List.orderedInsert]
    rw [if_neg (by omega)]
  rw [hsort]
  show runScan 1 [dateOf now - 1] (dateOf now - 2) 1 1 = 2
  simp only [runScan]
  rw [if_pos (by omega : (dateOf now - 1) - (dateOf now - 2) = 1)]
  norm_num [runScan]

/-- Witness for C3: a single completion on day 0 with `now` on day 2. -/
theorem C3_no_anchor_completion_current_streak_zero_witness :
    (∀ c ∈ ([0] : List Int),
        periodKey Periodicity.DAILY (dateOf c) ≠ periodKey Periodicity.DAILY (dateOf 2880))
    ∧ calculate_current_streak [0] Periodicity.DAILY 2880 = 0
    ∧ Habit.get_current_streak ⟨"r", "d", Periodicity.DAILY, 7, [0]⟩ 2880 = 0 :=
  ⟨by decide,
    (C3_no_anchor_completion_current_streak_zero.1 [0] Periodicity.DAILY 2880 (by decide)).1,
    (C3_no_anchor_completion_current_streak_zero.1 [0] Periodicity.DAILY 2880 (by decide)).2 "r" "d" 7⟩
